import Mathlib

/-!
Verification of the LUT-generator color pipeline.

This file gives a shallow embedding of the numeric core of the repository:

* `src/lib/lut-generator.ts` — the color-transform pipeline
  (`clamp`, `applyContrast`, `applySaturation`, `applyTemperature`,
  `applyLiftGammaGain`, `applyShadowsHighlights`, `transformColor`,
  the HEVC range/gamma compensation wrappers, the `.cube` serializer
  `generateCubeLUT` and the free-text parameter parser `parseAIResponse`);
* `src/lib/image-analysis.ts` — the histogram part of `analyzeImageData`
  and the parameter mapper `analysisToLUTParams`.

JavaScript numbers are modelled as real numbers (`ℝ`) where the code uses
`Math.pow` with fractional exponents (modelled by `Real.rpow`), and as
rationals (`ℚ`) in the purely field-arithmetic parts (grid enumeration,
free-text parsing, analysis mapping, histograms), so that those parts stay
executable.  The one JavaScript behaviour that rationals cannot express —
division by zero producing `NaN`/`±Infinity` — is modelled explicitly by
the `JSNum` type exactly where the source can divide by zero
(`analysisToLUTParams`'s gain stage).
-/

namespace LUT

/-- clamp from lut-generator.ts: `Math.max(0, Math.min(1, value))`. -/
noncomputable def clamp (value : ℝ) : ℝ := max 0 (min 1 value)

/-- applyContrast from lut-generator.ts:
`factor = (1 + contrast) / (1 - contrast * 0.99)`;
`clamp((value - 0.5) * factor + 0.5)`. -/
noncomputable def applyContrast (value contrast : ℝ) : ℝ :=
  clamp ((value - 0.5) * ((1 + contrast) / (1 - contrast * 0.99)) + 0.5)

/-- applySaturation from lut-generator.ts. -/
noncomputable def applySaturation (r g b saturation : ℝ) : ℝ × ℝ × ℝ :=
  let luminance := 0.299 * r + 0.587 * g + 0.114 * b
  let factor := 1 + saturation
  (clamp (luminance + (r - luminance) * factor),
   clamp (luminance + (g - luminance) * factor),
   clamp (luminance + (b - luminance) * factor))

/-- applyTemperature from lut-generator.ts:
`tempFactor = temp * 0.1`, `tintFactor = tint * 0.05`;
returns `clamp(r + tempFactor), clamp(g - tintFactor), clamp(b - tempFactor)`. -/
noncomputable def applyTemperature (r g b temp tint : ℝ) : ℝ × ℝ × ℝ :=
  (clamp (r + temp * 0.1), clamp (g - tint * 0.05), clamp (b - temp * 0.1))

/-- RGB triple used by the lift/gamma/gain parameters. -/
structure RGBTriple where
  r : ℝ
  g : ℝ
  b : ℝ

/-- The per-channel body of applyLiftGammaGain from lut-generator.ts
(`liftScale = 0.1`, `gammaScale = 0.2`, `gainScale = 0.2`):
`result = value + liftVal*0.1*(1-value)`;
`result = Math.pow(Math.max(0, result), 1/(1 + gammaVal*0.2))`;
`result = result * (1 + gainVal*0.2)`; clamped.  `Math.pow` on a
non-negative base is modelled by `Real.rpow`. -/
noncomputable def lggChannel (value liftVal gammaVal gainVal : ℝ) : ℝ :=
  let result := value + liftVal * 0.1 * (1 - value)
  let gammaPower := 1 / (1 + gammaVal * 0.2)
  let result2 := (max 0 result) ^ gammaPower
  clamp (result2 * (1 + gainVal * 0.2))

/-- applyLiftGammaGain from lut-generator.ts. -/
noncomputable def applyLiftGammaGain (r g b : ℝ) (lift gamma gain : RGBTriple) :
    ℝ × ℝ × ℝ :=
  (lggChannel r lift.r gamma.r gain.r,
   lggChannel g lift.g gamma.g gain.g,
   lggChannel b lift.b gamma.b gain.b)

/-- The per-channel body of applyShadowsHighlights from lut-generator.ts:
shadows nudge values `< 0.5` (mask `1 - value/0.5`), highlights nudge the
updated value when `> 0.5` (mask `(value - 0.5)/0.5`); each branch applies
only when the respective control is not exactly 0. -/
noncomputable def shChannel (shadows highlights value : ℝ) : ℝ :=
  let v1 := if value < 0.5 ∧ shadows ≠ 0 then
      clamp (value + shadows * 0.15 * (1 - value / 0.5)) else value
  if 0.5 < v1 ∧ highlights ≠ 0 then
      clamp (v1 + highlights * 0.15 * ((v1 - 0.5) / 0.5)) else v1

/-- applyShadowsHighlights from lut-generator.ts. -/
noncomputable def applyShadowsHighlights (r g b shadows highlights : ℝ) :
    ℝ × ℝ × ℝ :=
  (shChannel shadows highlights r,
   shChannel shadows highlights g,
   shChannel shadows highlights b)

/-- The LUTParams interface of lut-generator.ts: six scalar controls and
three RGB triples, all intended to lie in [-1, 1]. -/
structure LUTParams where
  contrast : ℝ
  saturation : ℝ
  temperature : ℝ
  tint : ℝ
  shadows : ℝ
  highlights : ℝ
  lift : RGBTriple
  gamma : RGBTriple
  gain : RGBTriple

/-- defaultParams from lut-generator.ts: every field 0. -/
noncomputable def defaultParams : LUTParams :=
  { contrast := 0, saturation := 0, temperature := 0, tint := 0,
    shadows := 0, highlights := 0,
    lift := ⟨0, 0, 0⟩, gamma := ⟨0, 0, 0⟩, gain := ⟨0, 0, 0⟩ }

/-- Validity of a parameter set: every scalar field and every channel of
every triple lies in [-1, 1] (the documented contract of LUTParams). -/
def validParams (p : LUTParams) : Prop :=
  p.contrast ∈ Set.Icc (-1 : ℝ) 1 ∧ p.saturation ∈ Set.Icc (-1 : ℝ) 1 ∧
  p.temperature ∈ Set.Icc (-1 : ℝ) 1 ∧ p.tint ∈ Set.Icc (-1 : ℝ) 1 ∧
  p.shadows ∈ Set.Icc (-1 : ℝ) 1 ∧ p.highlights ∈ Set.Icc (-1 : ℝ) 1 ∧
  p.lift.r ∈ Set.Icc (-1 : ℝ) 1 ∧ p.lift.g ∈ Set.Icc (-1 : ℝ) 1 ∧
  p.lift.b ∈ Set.Icc (-1 : ℝ) 1 ∧
  p.gamma.r ∈ Set.Icc (-1 : ℝ) 1 ∧ p.gamma.g ∈ Set.Icc (-1 : ℝ) 1 ∧
  p.gamma.b ∈ Set.Icc (-1 : ℝ) 1 ∧
  p.gain.r ∈ Set.Icc (-1 : ℝ) 1 ∧ p.gain.g ∈ Set.Icc (-1 : ℝ) 1 ∧
  p.gain.b ∈ Set.Icc (-1 : ℝ) 1

/-- transformColor from lut-generator.ts: the fixed five-stage pipeline
lift/gamma/gain → shadows/highlights → temperature/tint → contrast →
saturation. -/
noncomputable def transformColor (rIn gIn bIn : ℝ) (params : LUTParams) :
    ℝ × ℝ × ℝ :=
  let lgg := applyLiftGammaGain rIn gIn bIn params.lift params.gamma params.gain
  let sh := applyShadowsHighlights lgg.1 lgg.2.1 lgg.2.2 params.shadows
    params.highlights
  let temp := applyTemperature sh.1 sh.2.1 sh.2.2 params.temperature params.tint
  let r := applyContrast temp.1 params.contrast
  let g := applyContrast temp.2.1 params.contrast
  let b := applyContrast temp.2.2 params.contrast
  applySaturation r g b params.saturation

/-! ### HEVC range / gamma compensation (C6) -/

/-- limitedToFull from lut-generator.ts:
`clamp((value - 0.0627) / (0.9216 - 0.0627))`. -/
noncomputable def limitedToFull (value : ℝ) : ℝ :=
  clamp ((value - 0.0627) / (0.9216 - 0.0627))

/-- fullToLimited from lut-generator.ts:
`clamp(value * (0.9216 - 0.0627) + 0.0627)`. -/
noncomputable def fullToLimited (value : ℝ) : ℝ :=
  clamp (value * (0.9216 - 0.0627) + 0.0627)

/-- applyHEVCGammaCompensation from lut-generator.ts:
`Math.pow(Math.pow(Math.max(0, value), 1.96), 1/2.2)`. -/
noncomputable def applyHEVCGammaCompensation (value : ℝ) : ℝ :=
  ((max 0 value) ^ (1.96 : ℝ)) ^ ((1 : ℝ) / 2.2)

/-- applyInverseHEVCGammaCompensation from lut-generator.ts:
`Math.pow(Math.pow(Math.max(0, value), 2.2), 1/1.96)`. -/
noncomputable def applyInverseHEVCGammaCompensation (value : ℝ) : ℝ :=
  ((max 0 value) ^ (2.2 : ℝ)) ^ ((1 : ℝ) / 1.96)

/-- transformColorHEVC from lut-generator.ts: limited→full range expansion,
HEVC gamma compensation, the standard pipeline, inverse gamma compensation,
full→limited range compression. -/
noncomputable def transformColorHEVC (rIn gIn bIn : ℝ) (params : LUTParams) :
    ℝ × ℝ × ℝ :=
  let r1 := limitedToFull rIn
  let g1 := limitedToFull gIn
  let b1 := limitedToFull bIn
  let r2 := applyHEVCGammaCompensation r1
  let g2 := applyHEVCGammaCompensation g1
  let b2 := applyHEVCGammaCompensation b1
  let graded := transformColor r2 g2 b2 params
  let r3 := applyInverseHEVCGammaCompensation graded.1
  let g3 := applyInverseHEVCGammaCompensation graded.2.1
  let b3 := applyInverseHEVCGammaCompensation graded.2.2
  (fullToLimited r3, fullToLimited g3, fullToLimited b3)

/-- The parameter set used by C7: saturation -1, everything else 0. -/
noncomputable def satNeg1Params : LUTParams :=
  { defaultParams with saturation := -1 }

/-! ### The .cube serializer (C3, C8) -/

/-- LUTOutputFormat from lut-generator.ts. -/
inductive LUTOutputFormat where
  | standard
  | hevc
deriving DecidableEq

/-- The grid-input enumeration of generateCubeLUT: blue outer, green middle,
red inner; axis index i maps to `i / (size - 1)`. -/
def gridInputs (size : ℕ) : List (ℚ × ℚ × ℚ) :=
  (List.range size).flatMap fun b =>
    (List.range size).flatMap fun g =>
      (List.range size).map fun r : ℕ =>
        ((r : ℚ) / ((size : ℚ) - 1), (g : ℚ) / ((size : ℚ) - 1),
         (b : ℚ) / ((size : ℚ) - 1))

/-- Zero-pad a numeral to six digits (the fractional part of `toFixed(6)`). -/
def pad6 (n : ℕ) : String :=
  String.mk (List.replicate (6 - (toString n).length) '0') ++ toString n

/-- Fixed-point rendering of `n / 10^6` with six decimals. -/
def fixed6OfNat (n : ℕ) : String :=
  toString (n / 1000000) ++ "." ++ pad6 (n % 1000000)

/-- JavaScript's `x.toFixed(6)`, modelled as round-half-up on the exact real
value (negative-zero rendering is ignored; every value serialized by the
generator is non-negative). -/
noncomputable def toFixed6 (x : ℝ) : String :=
  if round (x * 1000000) < 0 then "-" ++ fixed6OfNat (round (x * 1000000)).natAbs
  else fixed6OfNat (round (x * 1000000)).natAbs

/-- The data lines of generateCubeLUT: one line per grid point, three
space-separated `toFixed(6)` values of the transformed color. -/
noncomputable def lutDataLines (params : LUTParams) (size : ℕ)
    (format : LUTOutputFormat) : List String :=
  (gridInputs size).map fun t =>
    let out := match format with
      | .hevc => transformColorHEVC (t.1 : ℝ) (t.2.1 : ℝ) (t.2.2 : ℝ) params
      | .standard => transformColor (t.1 : ℝ) (t.2.1 : ℝ) (t.2.2 : ℝ) params
    toFixed6 out.1 ++ " " ++ toFixed6 out.2.1 ++ " " ++ toFixed6 out.2.2

/-- The header lines of generateCubeLUT, exactly as pushed by the source. -/
def cubeHeader (title : String) (size : ℕ) (format : LUTOutputFormat) :
    List String :=
  ["TITLE \"" ++ title ++ "\"", "",
   "# Generated by LUT Generator"] ++
  (if format = LUTOutputFormat.hevc then
    ["# HEVC-Compatible: Optimized for Apple HEVC/H.265 footage",
     "# Compensates for limited range (16-235) and gamma differences"]
   else []) ++
  ["# Compatible with: Final Cut Pro, Premiere Pro, DaVinci Resolve, After Effects",
   "",
   "LUT_3D_SIZE " ++ toString size, "",
   "DOMAIN_MIN 0.0 0.0 0.0", "DOMAIN_MAX 1.0 1.0 1.0", ""]

/-- generateCubeLUT from lut-generator.ts: header lines followed by the
grid data lines, joined with newlines. -/
noncomputable def generateCubeLUT (params : LUTParams) (title : String)
    (size : ℕ) (format : LUTOutputFormat) : String :=
  String.intercalate "\n" (cubeHeader title size format ++
    lutDataLines params size format)

/-! ### The free-text parameter parser parseAIResponse (C4, C9)

The source matches, per field, the first (leftmost) occurrence of the regex
`<keyword>[:\s]*([+-]?[\d.]+)` (case-insensitive), and for the RGB triples
`<keyword>[:\s]*(?:rgb)?[:\s]*\(?(num)[,\s]+(num)[,\s]+(num)\)?`.  Because
the character classes `[:\s]`, `[+-]` and `[\d.]` are pairwise disjoint, the
greedy backtracking regex is equivalent to the deterministic
longest-munch scanner implemented below (tried at every start position,
left to right).  `\s` is modelled as space/tab/newline/carriage-return. -/

/-- Whitespace as used by the regex character class `\s`. -/
def isSpaceChar (c : Char) : Bool :=
  c == ' ' || c == '\t' || c == '\n' || c == '\r'

/-- The character class `[:\s]`. -/
def isColonSpace (c : Char) : Bool := c == ':' || isSpaceChar c

/-- The character class `[\d.]`. -/
def isDigitDot (c : Char) : Bool := c.isDigit || c == '.'

/-- The character class `[,\s]`. -/
def isCommaSpace (c : Char) : Bool := c == ',' || isSpaceChar c

/-- Case-insensitive prefix match of a (lowercase) keyword; returns the rest
of the input on success. -/
def matchPrefixCI : List Char → List Char → Option (List Char)
  | [], s => some s
  | _ :: _, [] => none
  | k :: ks, c :: cs => if c.toLower = k then matchPrefixCI ks cs else none

/-- Match `[+-]?[\d.]+` at the start of the input; returns the matched token
and the rest. -/
def numToken : List Char → Option (List Char × List Char)
  | [] => none
  | c :: cs =>
    if c = '+' ∨ c = '-' then
      let ds := cs.takeWhile isDigitDot
      if ds.isEmpty then none else some (c :: ds, cs.drop ds.length)
    else
      let ds := (c :: cs).takeWhile isDigitDot
      if ds.isEmpty then none else some (ds, (c :: cs).drop ds.length)

/-- Try the scalar pattern `<kw>s?[:\s]*([+-]?[\d.]+)` at this position
(`optS` enables the optional trailing `s` of `shadows?`/`highlights?`);
returns the captured number token. -/
def tryScalarAt (kw : List Char) (optS : Bool) (s : List Char) :
    Option (List Char) :=
  match matchPrefixCI kw s with
  | none => none
  | some rest =>
    let rest1 := if optS then
        match rest with
        | c :: cs => if c.toLower = 's' then cs else c :: cs
        | [] => ([] : List Char)
      else rest
    let rest2 := rest1.dropWhile isColonSpace
    match numToken rest2 with
    | none => none
    | some (tok, _) => some tok

/-- Try the RGB pattern
`<kw>[:\s]*(?:rgb)?[:\s]*\(?(num)[,\s]+(num)[,\s]+(num)\)?` at this
position; returns the three captured number tokens. -/
def tryRGBAt (kw : List Char) (s : List Char) :
    Option (List Char × List Char × List Char) :=
  match matchPrefixCI kw s with
  | none => none
  | some r0 =>
    let r1 := r0.dropWhile isColonSpace
    let r2 := match matchPrefixCI ['r', 'g', 'b'] r1 with
      | some t => t
      | none => r1
    let r3 := r2.dropWhile isColonSpace
    let r4 := match r3 with
      | '(' :: t => t
      | other => other
    match numToken r4 with
    | none => none
    | some (n1, r5) =>
      let s1 := r5.takeWhile isCommaSpace
      if s1.isEmpty then none else
      match numToken (r5.drop s1.length) with
      | none => none
      | some (n2, r7) =>
        let s2 := r7.takeWhile isCommaSpace
        if s2.isEmpty then none else
        match numToken (r7.drop s2.length) with
        | none => none
        | some (n3, _) => some (n1, n2, n3)

/-- Leftmost-match search: try the pattern at every start position. -/
def scanFor {α : Type} (f : List Char → Option α) : List Char → Option α
  | [] => f []
  | c :: cs =>
    match f (c :: cs) with
    | some v => some v
    | none => scanFor f cs

/-- Decimal value of a digit list. -/
def digitsToNat (l : List Char) : ℕ :=
  l.foldl (fun acc c => acc * 10 + (c.toNat - 48)) 0

/-- JavaScript `parseFloat` restricted to tokens of shape `[+-]?[\d.]+`:
optional sign, integer digits, then a fractional part after the first dot
(everything from a second dot on is ignored); `NaN` (none) when no digit is
found. -/
def parseFloatQ (l : List Char) : Option ℚ :=
  let sgn : ℚ := match l with
    | c :: _ => if c = '-' then -1 else 1
    | [] => 1
  let l1 := match l with
    | c :: cs => if c = '-' ∨ c = '+' then cs else c :: cs
    | [] => ([] : List Char)
  let intDs := l1.takeWhile Char.isDigit
  let rest := l1.drop intDs.length
  let fracDs := match rest with
    | c :: cs => if c = '.' then cs.takeWhile Char.isDigit else []
    | [] => []
  if intDs.isEmpty && fracDs.isEmpty then none
  else some (sgn * ((digitsToNat intDs : ℚ) +
    (digitsToNat fracDs : ℚ) / 10 ^ fracDs.length))

/-- clamp (the same source function), on the rational model. -/
def clampQ (value : ℚ) : ℚ := max 0 (min 1 value)

/-- The scalar normalization of parseAIResponse, line for line:
`clamp(value / (Math.abs(value) > 1 ? 100 : 1)) * (value < 0 ? -1 : 1)`. -/
def normScalar (value : ℚ) : ℚ :=
  clampQ (value / (if 1 < |value| then 100 else 1)) * (if value < 0 then -1 else 1)

/-- The per-channel normalization of the lift/gamma/gain triples:
`Math.max(-1, Math.min(1, v / (Math.abs(v) > 1 ? 100 : 1)))`. -/
def normChannel (v : ℚ) : ℚ :=
  max (-1) (min 1 (v / (if 1 < |v| then 100 else 1)))

/-- The result of parseAIResponse: `Partial<LUTParams>` — every field
optional. -/
structure ParsedParams where
  contrast : Option ℚ
  saturation : Option ℚ
  temperature : Option ℚ
  tint : Option ℚ
  shadows : Option ℚ
  highlights : Option ℚ
  lift : Option (ℚ × ℚ × ℚ)
  gamma : Option (ℚ × ℚ × ℚ)
  gain : Option (ℚ × ℚ × ℚ)
deriving DecidableEq

/-- A scalar field of parseAIResponse: first regex match, `parseFloat`, and
(when the parse is a number) the scalar normalization. -/
def scalarField (kw : List Char) (optS : Bool) (cs : List Char) : Option ℚ :=
  ((scanFor (tryScalarAt kw optS) cs).bind parseFloatQ).map normScalar

/-- An RGB field of parseAIResponse: first regex match, `parseFloat` on each
capture, and the channel normalization when all three are numbers. -/
def rgbField (kw : List Char) (cs : List Char) : Option (ℚ × ℚ × ℚ) :=
  (scanFor (tryRGBAt kw) cs).bind fun t =>
    match parseFloatQ t.1, parseFloatQ t.2.1, parseFloatQ t.2.2 with
    | some a, some b, some c =>
      some (normChannel a, normChannel b, normChannel c)
    | _, _, _ => none

/-- parseAIResponse from lut-generator.ts. -/
def parseAIResponse (response : String) : ParsedParams :=
  let cs := response.data
  { contrast := scalarField ("contrast").data false cs,
    saturation := scalarField ("saturation").data false cs,
    temperature := scalarField ("temperature").data false cs,
    tint := scalarField ("tint").data false cs,
    shadows := scalarField ("shadow").data true cs,
    highlights := scalarField ("highlight").data true cs,
    lift := rgbField ("lift").data cs,
    gamma := rgbField ("gamma").data cs,
    gain := rgbField ("gain").data cs }

/-! ### analysisToLUTParams from image-analysis.ts (C5)

The only division of the mapper is `averageColor.c / maxChannel` in the
gain stage.  JavaScript yields `NaN` for `0/0` and `±Infinity` for `x/0`
(`x ≠ 0`), and both propagate through the following subtraction,
multiplication and `Math.min`/`Math.max`; `JSNum` models exactly this. -/

/-- A JavaScript number: a finite value, an infinity, or NaN. -/
inductive JSNum where
  | num : ℚ → JSNum
  | posInf : JSNum
  | negInf : JSNum
  | nan : JSNum
deriving DecidableEq

/-- JavaScript division (as used in the gain stage). -/
def jsDiv (a b : ℚ) : JSNum :=
  if b = 0 then
    if a = 0 then JSNum.nan else if 0 < a then JSNum.posInf else JSNum.negInf
  else JSNum.num (a / b)

/-- Subtraction of a finite constant. -/
def jsSub (x : JSNum) (c : ℚ) : JSNum :=
  match x with
  | JSNum.num q => JSNum.num (q - c)
  | JSNum.posInf => JSNum.posInf
  | JSNum.negInf => JSNum.negInf
  | JSNum.nan => JSNum.nan

/-- Multiplication by a finite constant. -/
def jsMul (x : JSNum) (c : ℚ) : JSNum :=
  match x with
  | JSNum.num q => JSNum.num (q * c)
  | JSNum.posInf =>
    if 0 < c then JSNum.posInf else if c < 0 then JSNum.negInf else JSNum.nan
  | JSNum.negInf =>
    if 0 < c then JSNum.negInf else if c < 0 then JSNum.posInf else JSNum.nan
  | JSNum.nan => JSNum.nan

/-- `Math.min(c, x)` for finite c. -/
def jsMin (c : ℚ) (x : JSNum) : JSNum :=
  match x with
  | JSNum.num q => JSNum.num (min c q)
  | JSNum.posInf => JSNum.num c
  | JSNum.negInf => JSNum.negInf
  | JSNum.nan => JSNum.nan

/-- `Math.max(c, x)` for finite c. -/
def jsMax (c : ℚ) (x : JSNum) : JSNum :=
  match x with
  | JSNum.num q => JSNum.num (max c q)
  | JSNum.posInf => JSNum.posInf
  | JSNum.negInf => JSNum.num c
  | JSNum.nan => JSNum.nan

/-- The fields of the ImageAnalysis interface read by analysisToLUTParams. -/
structure ImageAnalysisQ where
  averageColor : ℚ × ℚ × ℚ
  brightness : ℚ
  contrast : ℚ
  saturation : ℚ
  temperature : ℚ
deriving DecidableEq

/-- The result record of analysisToLUTParams.  The gain channels are JSNum
because their computation can divide by zero; every other field is plain
(division-free) rational arithmetic. -/
structure AnalysisLUTParams where
  contrast : ℚ
  saturation : ℚ
  temperature : ℚ
  tint : ℚ
  shadows : ℚ
  highlights : ℚ
  lift : ℚ × ℚ × ℚ
  gamma : ℚ × ℚ × ℚ
  gain : JSNum × JSNum × JSNum
deriving DecidableEq

/-- `Math.max(-1, Math.min(1, v))`, the output clamp of the mapper. -/
def clamp11 (v : ℚ) : ℚ := max (-1) (min 1 v)

/-- analysisToLUTParams from image-analysis.ts. -/
def analysisToLUTParams (analysis : ImageAnalysisQ) : AnalysisLUTParams :=
  let avg := analysis.averageColor
  let lift := ((avg.1 - 0.5) * 0.3, (avg.2.1 - 0.5) * 0.3,
    (avg.2.2 - 0.5) * 0.3)
  let gamma := ((avg.1 - 0.5) * 0.5, (avg.2.1 - 0.5) * 0.5,
    (avg.2.2 - 0.5) * 0.5)
  let maxChannel := max avg.1 (max avg.2.1 avg.2.2)
  let gainR := jsMul (jsSub (jsDiv avg.1 maxChannel) 1) 0.3
  let gainG := jsMul (jsSub (jsDiv avg.2.1 maxChannel) 1) 0.3
  let gainB := jsMul (jsSub (jsDiv avg.2.2 maxChannel) 1) 0.3
  let contrastParam := (analysis.contrast - 0.5) * 0.6
  let saturationParam := (analysis.saturation - 0.3) * 1.5
  let temperatureParam := analysis.temperature * 0.8
  let tintParam := (avg.2.1 - (avg.1 + avg.2.2) / 2) * 0.5
  let shadowsParam :=
    if analysis.brightness < 0.4 then -(0.4 - analysis.brightness) * 0.5 else 0
  let highlightsParam :=
    if analysis.brightness > 0.6 then (analysis.brightness - 0.6) * 0.5 else 0
  { contrast := clamp11 contrastParam,
    saturation := clamp11 saturationParam,
    temperature := clamp11 temperatureParam,
    tint := clamp11 tintParam,
    shadows := clamp11 shadowsParam,
    highlights := clamp11 highlightsParam,
    lift := (clamp11 lift.1, clamp11 lift.2.1, clamp11 lift.2.2),
    gamma := (clamp11 gamma.1, clamp11 gamma.2.1, clamp11 gamma.2.2),
    gain := (jsMax (-1) (jsMin 1 gainR), jsMax (-1) (jsMin 1 gainG),
      jsMax (-1) (jsMin 1 gainB)) }

/-! ### Histogram normalization in analyzeImageData (C10)

The per-pixel loop of analyzeImageData increments, for each pixel, the R, G
and B histogram bins indexed by the raw byte values and the luminance bin
`Math.floor(lum * 255)`; afterwards all four histograms are divided by the
single joint maximum bin count `maxHistValue` (when it is positive).  A
histogram bin built by increments equals the count of pixels hitting it,
which is how the bins are modelled here. -/

/-- One RGB pixel of the RGBA buffer (the alpha byte is never read). -/
def Pixel : Type := Fin 256 × Fin 256 × Fin 256

/-- getLuminance from image-analysis.ts. -/
def getLuminance (r g b : ℚ) : ℚ := 0.299 * r + 0.587 * g + 0.114 * b

/-- The red byte of a pixel. -/
def selR (p : Pixel) : ℕ := p.1.val

/-- The green byte of a pixel. -/
def selG (p : Pixel) : ℕ := p.2.1.val

/-- The blue byte of a pixel. -/
def selB (p : Pixel) : ℕ := p.2.2.val

/-- The luminance histogram bin of a pixel:
`Math.floor(getLuminance(r/255, g/255, b/255) * 255)`. -/
def lumBin (p : Pixel) : ℕ :=
  (⌊getLuminance ((p.1.val : ℚ) / 255) ((p.2.1.val : ℚ) / 255)
    ((p.2.2.val : ℚ) / 255) * 255⌋).toNat

/-- The count accumulated in one histogram bin by the per-pixel loop. -/
def histCount (sel : Pixel → ℕ) (pixels : List Pixel) (bin : ℕ) : ℕ :=
  pixels.countP (fun p => sel p == bin)

/-- All 4 × 256 bin counts (R, G, B, luminance). -/
def allBinCounts (pixels : List Pixel) : List ℕ :=
  ((List.range 256).map (histCount selR pixels)) ++
  ((List.range 256).map (histCount selG pixels)) ++
  ((List.range 256).map (histCount selB pixels)) ++
  ((List.range 256).map (histCount lumBin pixels))

/-- maxHistValue from analyzeImageData: the joint maximum over all four
histograms' bins. -/
def maxHistValue (pixels : List Pixel) : ℕ :=
  (allBinCounts pixels).foldr max 0

/-- A normalized histogram bin: divided by the joint maximum when that is
positive, the raw count otherwise. -/
def normHist (sel : Pixel → ℕ) (pixels : List Pixel) (bin : ℕ) : ℚ :=
  if 0 < maxHistValue pixels then
    (histCount sel pixels bin : ℚ) / (maxHistValue pixels : ℚ)
  else (histCount sel pixels bin : ℚ)

/-- The two-pixel buffer used for the strict part of C10: a black pixel and
an almost-black pixel differing only in the red byte. -/
def twoPixels : List Pixel :=
  [((0 : Fin 256), (0 : Fin 256), (0 : Fin 256)),
   ((1 : Fin 256), (0 : Fin 256), (0 : Fin 256))]

/-! ### Basic clamp lemmas -/

theorem clamp_nonneg (x : ℝ) : 0 ≤ clamp x := le_max_left 0 _

theorem clamp_le_one (x : ℝ) : clamp x ≤ 1 :=
  max_le zero_le_one (min_le_left 1 x)

theorem clamp_of_mem {x : ℝ} (h0 : 0 ≤ x) (h1 : x ≤ 1) : clamp x = x := by
  unfold clamp
  rw [min_eq_right h1, max_eq_right h0]

/-! ### Stage lemmas at neutral parameters -/

theorem lggChannel_neutral {v : ℝ} (h0 : 0 ≤ v) (h1 : v ≤ 1) :
    lggChannel v 0 0 0 = v := by
  unfold lggChannel
  simp only
  have e1 : v + 0 * (0.1 : ℝ) * (1 - v) = v := by ring
  have e2 : 1 + (0 : ℝ) * 0.2 = 1 := by norm_num
  have e3 : (1 : ℝ) / 1 = 1 := by norm_num
  rw [e1, e2, e3, max_eq_right h0, Real.rpow_one, mul_one]
  exact clamp_of_mem h0 h1

theorem shChannel_neutral (v : ℝ) : shChannel 0 0 v = v := by
  unfold shChannel
  simp

theorem applyTemperature_neutral {r g b : ℝ}
    (hr0 : 0 ≤ r) (hr1 : r ≤ 1) (hg0 : 0 ≤ g) (hg1 : g ≤ 1)
    (hb0 : 0 ≤ b) (hb1 : b ≤ 1) :
    applyTemperature r g b 0 0 = (r, g, b) := by
  unfold applyTemperature
  have er : r + 0 * (0.1 : ℝ) = r := by ring
  have eg : g - 0 * (0.05 : ℝ) = g := by ring
  have eb : b - 0 * (0.1 : ℝ) = b := by ring
  rw [er, eg, eb, clamp_of_mem hr0 hr1, clamp_of_mem hg0 hg1,
    clamp_of_mem hb0 hb1]

theorem applyContrast_zero {v : ℝ} (h0 : 0 ≤ v) (h1 : v ≤ 1) :
    applyContrast v 0 = v := by
  unfold applyContrast
  have h : (v - 0.5) * ((1 + (0 : ℝ)) / (1 - 0 * 0.99)) + 0.5 = v := by
    norm_num
  rw [h]
  exact clamp_of_mem h0 h1

theorem applySaturation_zero {r g b : ℝ}
    (hr0 : 0 ≤ r) (hr1 : r ≤ 1) (hg0 : 0 ≤ g) (hg1 : g ≤ 1)
    (hb0 : 0 ≤ b) (hb1 : b ≤ 1) :
    applySaturation r g b 0 = (r, g, b) := by
  unfold applySaturation
  simp only
  have h : ∀ x : ℝ,
      0.299 * r + 0.587 * g + 0.114 * b +
        (x - (0.299 * r + 0.587 * g + 0.114 * b)) * (1 + 0) = x := by
    intro x; ring
  rw [h r, h g, h b, clamp_of_mem hr0 hr1, clamp_of_mem hg0 hg1,
    clamp_of_mem hb0 hb1]

/-- Shared helper: `applySaturation` at saturation -1 replicates the clamped
luma onto all three channels. -/
theorem applySaturation_neg1 (r g b : ℝ) :
    applySaturation r g b (-1) =
      (clamp (0.299 * r + 0.587 * g + 0.114 * b),
       clamp (0.299 * r + 0.587 * g + 0.114 * b),
       clamp (0.299 * r + 0.587 * g + 0.114 * b)) := by
  unfold applySaturation
  simp only
  have h : ∀ x : ℝ,
      0.299 * r + 0.587 * g + 0.114 * b +
        (x - (0.299 * r + 0.587 * g + 0.114 * b)) * (1 + -1) =
      0.299 * r + 0.587 * g + 0.114 * b := by
    intro x; ring
  rw [h r, h g, h b]

/-- Shared helper: at the all-zero parameter set the whole pipeline is the
identity on [0,1]³. -/
theorem transformColor_default_id {r g b : ℝ}
    (hr0 : 0 ≤ r) (hr1 : r ≤ 1) (hg0 : 0 ≤ g) (hg1 : g ≤ 1)
    (hb0 : 0 ≤ b) (hb1 : b ≤ 1) :
    transformColor r g b defaultParams = (r, g, b) := by
  unfold transformColor defaultParams applyLiftGammaGain applyShadowsHighlights
  simp only
  rw [lggChannel_neutral hr0 hr1, lggChannel_neutral hg0 hg1,
    lggChannel_neutral hb0 hb1]
  rw [shChannel_neutral r, shChannel_neutral g, shChannel_neutral b]
  rw [applyTemperature_neutral hr0 hr1 hg0 hg1 hb0 hb1]
  simp only
  rw [applyContrast_zero hr0 hr1, applyContrast_zero hg0 hg1,
    applyContrast_zero hb0 hb1]
  exact applySaturation_zero hr0 hr1 hg0 hg1 hb0 hb1

/-- C1: with all six scalar controls at 0 and all lift/gamma/gain channels
at 0 (the defaultParams value), `transformColor` returns its input exactly,
for every (r, g, b) in [0,1]³. -/
theorem c1_neutral_identity {r g b : ℝ}
    (hr0 : 0 ≤ r) (hr1 : r ≤ 1) (hg0 : 0 ≤ g) (hg1 : g ≤ 1)
    (hb0 : 0 ≤ b) (hb1 : b ≤ 1) :
    transformColor r g b defaultParams = (r, g, b) :=
  transformColor_default_id hr0 hr1 hg0 hg1 hb0 hb1

/-- Witness for C1 at the concrete input (1/2, 1/3, 1/4). -/
theorem c1_neutral_identity_witness :
    transformColor (1/2) (1/3) (1/4) defaultParams = (1/2, 1/3, 1/4) :=
  c1_neutral_identity (by norm_num) (by norm_num) (by norm_num)
    (by norm_num) (by norm_num) (by norm_num)

/-- C2: for inputs in [0,1]³ and valid parameters (all fields in [-1,1])
every output channel of `transformColor` lies in [0,1], and the contrast
denominator `1 - contrast * 0.99` is nonzero. -/
theorem c2_output_range {r g b : ℝ} (p : LUTParams)
    (hr0 : 0 ≤ r) (hr1 : r ≤ 1) (hg0 : 0 ≤ g) (hg1 : g ≤ 1)
    (hb0 : 0 ≤ b) (hb1 : b ≤ 1) (hp : validParams p) :
    (0 ≤ (transformColor r g b p).1 ∧ (transformColor r g b p).1 ≤ 1) ∧
    (0 ≤ (transformColor r g b p).2.1 ∧ (transformColor r g b p).2.1 ≤ 1) ∧
    (0 ≤ (transformColor r g b p).2.2 ∧ (transformColor r g b p).2.2 ≤ 1) ∧
    1 - p.contrast * 0.99 ≠ 0 := by
  refine ⟨?_, ?_, ?_, ?_⟩
  · simp only [transformColor, applySaturation]
    exact ⟨clamp_nonneg _, clamp_le_one _⟩
  · simp only [transformColor, applySaturation]
    exact ⟨clamp_nonneg _, clamp_le_one _⟩
  · simp only [transformColor, applySaturation]
    exact ⟨clamp_nonneg _, clamp_le_one _⟩
  · have h1 : p.contrast ≤ 1 := hp.1.2
    have h2 : (-1 : ℝ) ≤ p.contrast := hp.1.1
    have : (0 : ℝ) < 1 - p.contrast * 0.99 := by nlinarith
    exact ne_of_gt this

/-- Witness for C2 at input (1/2, 0, 1) and the default (all-zero,
valid) parameter set. -/
theorem c2_output_range_witness :
    (0 ≤ (transformColor (1/2) 0 1 defaultParams).1 ∧
      (transformColor (1/2) 0 1 defaultParams).1 ≤ 1) ∧
    (0 ≤ (transformColor (1/2) 0 1 defaultParams).2.1 ∧
      (transformColor (1/2) 0 1 defaultParams).2.1 ≤ 1) ∧
    (0 ≤ (transformColor (1/2) 0 1 defaultParams).2.2 ∧
      (transformColor (1/2) 0 1 defaultParams).2.2 ≤ 1) ∧
    1 - defaultParams.contrast * 0.99 ≠ 0 :=
  c2_output_range defaultParams (by norm_num) (by norm_num) (by norm_num)
    (by norm_num) (by norm_num) (by norm_num)
    (by norm_num [validParams, defaultParams, Set.mem_Icc])

theorem clamp_of_nonpos {x : ℝ} (h : x ≤ 0) : clamp x = 0 := by
  unfold clamp
  rw [min_eq_right (le_trans h zero_le_one), max_eq_left h]

theorem hevcComp_nonneg (x : ℝ) : 0 ≤ applyHEVCGammaCompensation x :=
  Real.rpow_nonneg (Real.rpow_nonneg (le_max_left 0 x) _) _

theorem hevcComp_le_one {x : ℝ} (h1 : x ≤ 1) :
    applyHEVCGammaCompensation x ≤ 1 := by
  unfold applyHEVCGammaCompensation
  have hb0 : 0 ≤ max 0 x := le_max_left 0 x
  have hb1 : max 0 x ≤ 1 := max_le zero_le_one h1
  exact Real.rpow_le_one
    (Real.rpow_nonneg hb0 _)
    (Real.rpow_le_one hb0 hb1 (by norm_num))
    (by norm_num)

/-- The inverse gamma compensation exactly undoes the forward one on
non-negative inputs. -/
theorem hevcComp_roundtrip {x : ℝ} (h0 : 0 ≤ x) :
    applyInverseHEVCGammaCompensation (applyHEVCGammaCompensation x) = x := by
  unfold applyInverseHEVCGammaCompensation applyHEVCGammaCompensation
  have hy : 0 ≤ ((max 0 x) ^ (1.96 : ℝ)) ^ ((1 : ℝ) / 2.2) :=
    Real.rpow_nonneg (Real.rpow_nonneg (le_max_left 0 x) _) _
  rw [max_eq_right hy, max_eq_right h0]
  rw [← Real.rpow_mul (Real.rpow_nonneg h0 _)]
  norm_num
  rw [← Real.rpow_mul h0]
  norm_num

/-- Range compression exactly undoes range expansion on the limited range
[0.0627, 0.9216]. -/
theorem fullToLimited_limitedToFull {v : ℝ}
    (h0 : 0.0627 ≤ v) (h1 : v ≤ 0.9216) :
    fullToLimited (limitedToFull v) = v := by
  unfold fullToLimited limitedToFull
  have hq0 : 0 ≤ (v - 0.0627) / (0.9216 - 0.0627) :=
    div_nonneg (by linarith) (by norm_num)
  have hq1 : (v - 0.0627) / (0.9216 - 0.0627) ≤ 1 :=
    (div_le_one (by norm_num)).mpr (by linarith)
  rw [clamp_of_mem hq0 hq1]
  have harg : (v - 0.0627) / (0.9216 - 0.0627) * (0.9216 - 0.0627) + 0.0627
      = v := by field_simp
  rw [harg]
  exact clamp_of_mem (by linarith) (by linarith)

/-- C6 counterexample: at neutral parameters, `transformColorHEVC` maps the
input channel 0 to 0.0627, which is not within any floating tolerance of 0:
the claimed approximate identity on all of [0,1] is false. -/
theorem c6_roundtrip_counterexample :
    (transformColorHEVC 0 0 0 defaultParams).1 = 0.0627 ∧
    (0.01 : ℝ) < |(transformColorHEVC 0 0 0 defaultParams).1 - 0| := by
  have e1 : limitedToFull 0 = 0 := by
    unfold limitedToFull
    exact clamp_of_nonpos (by norm_num)
  have e2 : applyHEVCGammaCompensation 0 = 0 := by
    unfold applyHEVCGammaCompensation
    rw [max_self, Real.zero_rpow (by norm_num), Real.zero_rpow (by norm_num)]
  have e3 : applyInverseHEVCGammaCompensation 0 = 0 := by
    unfold applyInverseHEVCGammaCompensation
    rw [max_self, Real.zero_rpow (by norm_num), Real.zero_rpow (by norm_num)]
  have e4 : fullToLimited 0 = 0.0627 := by
    unfold fullToLimited
    have : (0 : ℝ) * (0.9216 - 0.0627) + 0.0627 = 0.0627 := by norm_num
    rw [this]
    exact clamp_of_mem (by norm_num) (by norm_num)
  have key : (transformColorHEVC 0 0 0 defaultParams).1 = 0.0627 := by
    unfold transformColorHEVC
    simp only
    rw [e1, e2, transformColor_default_id le_rfl zero_le_one le_rfl
      zero_le_one le_rfl zero_le_one]
    simp only
    rw [e3, e4]
  refine ⟨key, ?_⟩
  rw [key]
  rw [show (0.0627 : ℝ) - 0 = 0.0627 by ring, abs_of_nonneg (by norm_num)]
  norm_num

/-- C6 amended: on the limited range [0.0627, 0.9216] per channel, the HEVC
pipeline at neutral parameters is exactly the identity (the pre-pass range
expansion and gamma linearization are undone by the post-pass inverse). -/
theorem c6_roundtrip_amended {r g b : ℝ}
    (hr0 : 0.0627 ≤ r) (hr1 : r ≤ 0.9216)
    (hg0 : 0.0627 ≤ g) (hg1 : g ≤ 0.9216)
    (hb0 : 0.0627 ≤ b) (hb1 : b ≤ 0.9216) :
    transformColorHEVC r g b defaultParams = (r, g, b) := by
  have m0 : ∀ v : ℝ, 0 ≤ limitedToFull v := by
    intro v; unfold limitedToFull; exact clamp_nonneg _
  have m1 : ∀ v : ℝ, limitedToFull v ≤ 1 := by
    intro v; unfold limitedToFull; exact clamp_le_one _
  unfold transformColorHEVC
  simp only
  rw [transformColor_default_id
    (hevcComp_nonneg _) (hevcComp_le_one (m1 r))
    (hevcComp_nonneg _) (hevcComp_le_one (m1 g))
    (hevcComp_nonneg _) (hevcComp_le_one (m1 b))]
  simp only
  rw [hevcComp_roundtrip (m0 r), hevcComp_roundtrip (m0 g),
    hevcComp_roundtrip (m0 b)]
  rw [fullToLimited_limitedToFull hr0 hr1,
    fullToLimited_limitedToFull hg0 hg1,
    fullToLimited_limitedToFull hb0 hb1]

/-- Witness for the amended C6 at the concrete input (1/2, 1/10, 9/10). -/
theorem c6_roundtrip_amended_witness :
    transformColorHEVC (1/2) (1/10) (9/10) defaultParams =
      (1/2, 1/10, 9/10) :=
  c6_roundtrip_amended (by norm_num) (by norm_num) (by norm_num)
    (by norm_num) (by norm_num) (by norm_num)

/-- C7: `transformColor` at saturation -1 (all else 0) maps (1, 0, 0) to
the channel-equal gray (0.299, 0.299, 0.299); in general `applySaturation`
at saturation -1 replicates the clamped perceptual luma
0.299·R + 0.587·G + 0.114·B onto all three channels. -/
theorem c7_full_desaturation :
    transformColor 1 0 0 satNeg1Params = (0.299, 0.299, 0.299) ∧
    ∀ r g b : ℝ, applySaturation r g b (-1) =
      (clamp (0.299 * r + 0.587 * g + 0.114 * b),
       clamp (0.299 * r + 0.587 * g + 0.114 * b),
       clamp (0.299 * r + 0.587 * g + 0.114 * b)) := by
  constructor
  · have h1 : lggChannel 1 0 0 0 = 1 := lggChannel_neutral zero_le_one le_rfl
    have h0 : lggChannel 0 0 0 0 = 0 := lggChannel_neutral le_rfl zero_le_one
    unfold transformColor satNeg1Params defaultParams applyLiftGammaGain
      applyShadowsHighlights
    simp only
    rw [h1, h0]
    rw [shChannel_neutral 1, shChannel_neutral 0]
    rw [applyTemperature_neutral zero_le_one le_rfl le_rfl zero_le_one
      le_rfl zero_le_one]
    simp only
    rw [applyContrast_zero zero_le_one le_rfl,
      applyContrast_zero le_rfl zero_le_one]
    rw [applySaturation_neg1]
    norm_num
    exact clamp_of_mem (by norm_num) (by norm_num)
  · exact applySaturation_neg1

/-! ### List indexing helpers for the grid enumeration -/

theorem length_flatMap_const {α β : Type} (l : List α) (f : α → List β) (c : ℕ)
    (h : ∀ a ∈ l, (f a).length = c) : (l.flatMap f).length = l.length * c := by
  induction l with
  | nil => simp
  | cons x xs ih =>
    rw [List.flatMap_cons, List.length_append, h x (List.mem_cons_self x xs),
      ih (fun a ha => h a (List.mem_cons_of_mem _ ha)), List.length_cons]
    ring

theorem get?_flatMap_const {α β : Type} (f : α → List β) (c : ℕ) :
    ∀ (L : List α) (n : ℕ), (∀ a ∈ L, (f a).length = c) → n < L.length * c →
    (L.flatMap f).get? n = (L.get? (n / c)).bind fun a => (f a).get? (n % c) := by
  intro L
  induction L with
  | nil => intro n h hn; simp at hn
  | cons x xs ih =>
    intro n h hn
    rcases Nat.eq_zero_or_pos c with hc0 | hc
    · rw [hc0] at hn; simp at hn
    rw [List.flatMap_cons]
    by_cases hlt : n < c
    · rw [List.get?_append (by rw [h x (List.mem_cons_self x xs)]; exact hlt)]
      rw [Nat.div_eq_of_lt hlt, Nat.mod_eq_of_lt hlt]
      rfl
    · push_neg at hlt
      rw [List.get?_append_right (by rw [h x (List.mem_cons_self x xs)]; exact hlt)]
      rw [h x (List.mem_cons_self x xs)]
      have hlen : (x :: xs).length * c = xs.length * c + c := by
        rw [List.length_cons]; ring
      have hn' : n - c < xs.length * c := by omega
      rw [ih (n - c) (fun a ha => h a (List.mem_cons_of_mem _ ha)) hn']
      have hdiv : n / c = (n - c) / c + 1 := Nat.div_eq_sub_div hc hlt
      have hmod : (n - c) % c = n % c := (Nat.mod_eq_sub_mod hlt).symm
      rw [hdiv, hmod]
      rfl

theorem length_gridInputs (size : ℕ) : (gridInputs size).length = size ^ 3 := by
  unfold gridInputs
  have hinner : ∀ b ∈ List.range size,
      ((List.range size).flatMap fun g =>
        (List.range size).map fun r : ℕ =>
          ((r : ℚ) / ((size : ℚ) - 1), (g : ℚ) / ((size : ℚ) - 1),
           (b : ℚ) / ((size : ℚ) - 1))).length = size * size := by
    intro b _
    rw [length_flatMap_const _ _ size (fun g _ => by
      rw [List.length_map, List.length_range]), List.length_range]
  rw [length_flatMap_const _ _ (size * size) hinner, List.length_range]
  ring

/-- The (i, j, k)-th grid point (red index i fastest) is exactly
`(i/(size-1), j/(size-1), k/(size-1))`. -/
theorem gridInputs_get {size i j k : ℕ}
    (hi : i < size) (hj : j < size) (hk : k < size) :
    (gridInputs size).get? (k * (size * size) + j * size + i) =
      some ((i : ℚ) / ((size : ℚ) - 1), (j : ℚ) / ((size : ℚ) - 1),
        (k : ℚ) / ((size : ℚ) - 1)) := by
  have hs : 0 < size := by omega
  have hss : 0 < size * size := Nat.mul_pos hs hs
  have hji : j * size + i < size * size := by
    calc j * size + i < j * size + size := by omega
    _ = (j + 1) * size := by ring
    _ ≤ size * size := Nat.mul_le_mul_right size hj
  have hidx : k * (size * size) + j * size + i < size * (size * size) := by
    calc k * (size * size) + j * size + i
        < k * (size * size) + size * size := by omega
    _ = (k + 1) * (size * size) := by ring
    _ ≤ size * (size * size) := Nat.mul_le_mul_right (size * size) hk
  unfold gridInputs
  have hinner : ∀ b ∈ List.range size,
      ((List.range size).flatMap fun g =>
        (List.range size).map fun r : ℕ =>
          ((r : ℚ) / ((size : ℚ) - 1), (g : ℚ) / ((size : ℚ) - 1),
           (b : ℚ) / ((size : ℚ) - 1))).length = size * size := by
    intro b _
    rw [length_flatMap_const _ _ size (fun g _ => by
      rw [List.length_map, List.length_range]), List.length_range]
  rw [get?_flatMap_const _ (size * size) _ _ hinner (by
    rw [List.length_range]; exact hidx)]
  have hd1 : (k * (size * size) + j * size + i) / (size * size) = k := by
    have : k * (size * size) + j * size + i =
        (j * size + i) + (size * size) * k := by ring
    rw [this, Nat.add_mul_div_left _ _ hss, Nat.div_eq_of_lt hji]
    omega
  have hm1 : (k * (size * size) + j * size + i) % (size * size) =
      j * size + i := by
    have : k * (size * size) + j * size + i =
        (j * size + i) + (size * size) * k := by ring
    rw [this, Nat.add_mul_mod_self_left, Nat.mod_eq_of_lt hji]
  rw [hd1, hm1, List.get?_range hk]
  simp only [Option.some_bind]
  rw [get?_flatMap_const _ size _ _ (fun g _ => by
    rw [List.length_map, List.length_range]) (by
    rw [List.length_range]; exact hji)]
  have hd2 : (j * size + i) / size = j := by
    have : j * size + i = i + size * j := by ring
    rw [this, Nat.add_mul_div_left _ _ hs, Nat.div_eq_of_lt hi]
    omega
  have hm2 : (j * size + i) % size = i := by
    have : j * size + i = i + size * j := by ring
    rw [this, Nat.add_mul_mod_self_left, Nat.mod_eq_of_lt hi]
  rw [hd2, hm2, List.get?_range hj]
  simp only [Option.some_bind]
  rw [List.get?_map, List.get?_range hi]
  rfl

/-- C3: for size ≥ 2 the serializer emits exactly size³ data lines (35937
for size 33); the (i,j,k)-th grid input is (i/(size-1), j/(size-1),
k/(size-1)); the first grid input is (0,0,0) and the last (1,1,1) exactly;
among the first `size` entries the red input is i/(size-1) with green and
blue 0, and it strictly increases from 0/(size-1) = 0 to
(size-1)/(size-1) = 1. -/
theorem c3_grid_enumeration (params : LUTParams) (size : ℕ)
    (format : LUTOutputFormat) (hs : 2 ≤ size) :
    (lutDataLines params size format).length = size ^ 3 ∧
    (lutDataLines params 33 format).length = 35937 ∧
    (∀ i j k : ℕ, i < size → j < size → k < size →
      (gridInputs size).get? (k * (size * size) + j * size + i) =
        some ((i : ℚ) / ((size : ℚ) - 1), (j : ℚ) / ((size : ℚ) - 1),
          (k : ℚ) / ((size : ℚ) - 1))) ∧
    (gridInputs size).get? 0 = some (0, 0, 0) ∧
    (gridInputs size).get? (size ^ 3 - 1) = some (1, 1, 1) ∧
    (∀ i : ℕ, i < size →
      (gridInputs size).get? i = some ((i : ℚ) / ((size : ℚ) - 1), 0, 0)) ∧
    (∀ i1 i2 : ℕ, i1 < i2 → i2 < size →
      (i1 : ℚ) / ((size : ℚ) - 1) < (i2 : ℚ) / ((size : ℚ) - 1)) ∧
    (0 : ℚ) / ((size : ℚ) - 1) = 0 ∧
    ((size : ℚ) - 1) / ((size : ℚ) - 1) = 1 := by
  have hs0 : 0 < size := by omega
  have hden : (0 : ℚ) < (size : ℚ) - 1 := by
    have : (2 : ℚ) ≤ (size : ℚ) := by exact_mod_cast hs
    linarith
  refine ⟨?_, ?_, fun i j k hi hj hk => gridInputs_get hi hj hk, ?_, ?_, ?_,
    ?_, zero_div _, div_self (ne_of_gt hden)⟩
  · unfold lutDataLines
    rw [List.length_map, length_gridInputs]
  · unfold lutDataLines
    rw [List.length_map, length_gridInputs]
    norm_num
  · have h := @gridInputs_get size 0 0 0 hs0 hs0 hs0
    simpa using h
  · have h := @gridInputs_get size (size - 1) (size - 1) (size - 1)
      (by omega) (by omega) (by omega)
    have hidx : (size - 1) * (size * size) + (size - 1) * size + (size - 1) =
        size ^ 3 - 1 := by
      obtain ⟨t, rfl⟩ : ∃ t, size = t + 2 := ⟨size - 2, by omega⟩
      have e1 : t + 2 - 1 = t + 1 := by omega
      have e2 : (t + 2) ^ 3 =
          ((t + 1) * ((t + 2) * (t + 2)) + (t + 1) * (t + 2) + (t + 1)) + 1 := by
        ring
      rw [e1]
      omega
    have hval : ((size - 1 : ℕ) : ℚ) / ((size : ℚ) - 1) = 1 := by
      rw [Nat.cast_sub (by omega), Nat.cast_one]
      exact div_self (ne_of_gt hden)
    rw [hidx, hval] at h
    exact h
  · intro i hi
    have h := @gridInputs_get size i 0 0 hi hs0 hs0
    simpa using h
  · intro i1 i2 h12 _
    exact (div_lt_div_right hden).mpr (by exact_mod_cast h12)

/-- Witness for C3 at grid size 2: the first grid input is (0,0,0). -/
theorem c3_grid_enumeration_witness :
    (gridInputs 2).get? 0 = some (0, 0, 0) :=
  (c3_grid_enumeration defaultParams 2 LUTOutputFormat.standard
    (by norm_num)).2.2.2.1

/-- Every output channel of `transformColor` is clamped to [0,1] by the
final saturation stage, for any input and any parameters. -/
theorem transformColor_mem (r g b : ℝ) (p : LUTParams) :
    (0 ≤ (transformColor r g b p).1 ∧ (transformColor r g b p).1 ≤ 1) ∧
    (0 ≤ (transformColor r g b p).2.1 ∧ (transformColor r g b p).2.1 ≤ 1) ∧
    (0 ≤ (transformColor r g b p).2.2 ∧ (transformColor r g b p).2.2 ≤ 1) := by
  refine ⟨?_, ?_, ?_⟩ <;> simp only [transformColor, applySaturation] <;>
    exact ⟨clamp_nonneg _, clamp_le_one _⟩

/-- Every output channel of `transformColorHEVC` is clamped to [0,1] by the
final range compression, for any input and any parameters. -/
theorem transformColorHEVC_mem (r g b : ℝ) (p : LUTParams) :
    (0 ≤ (transformColorHEVC r g b p).1 ∧
      (transformColorHEVC r g b p).1 ≤ 1) ∧
    (0 ≤ (transformColorHEVC r g b p).2.1 ∧
      (transformColorHEVC r g b p).2.1 ≤ 1) ∧
    (0 ≤ (transformColorHEVC r g b p).2.2 ∧
      (transformColorHEVC r g b p).2.2 ≤ 1) := by
  refine ⟨?_, ?_, ?_⟩ <;> simp only [transformColorHEVC, fullToLimited] <;>
    exact ⟨clamp_nonneg _, clamp_le_one _⟩

/-- `toFixed(6)` of a value in [0,1] is the fixed-point rendering of some
n/10⁶ with n ≤ 10⁶. -/
theorem toFixed6_of_mem {x : ℝ} (h0 : 0 ≤ x) (h1 : x ≤ 1) :
    ∃ n : ℕ, n ≤ 1000000 ∧ toFixed6 x = fixed6OfNat n := by
  have hr0 : (0 : ℤ) ≤ round (x * 1000000) := by
    rw [round_eq]
    apply Int.floor_nonneg.mpr
    nlinarith
  have hr1 : round (x * 1000000) ≤ 1000000 := by
    rw [round_eq]
    have hf : ⌊x * 1000000 + 1/2⌋ < (1000001 : ℤ) := by
      apply Int.floor_lt.mpr
      push_cast
      nlinarith
    omega
  refine ⟨(round (x * 1000000)).natAbs, ?_, ?_⟩
  · omega
  · unfold toFixed6
    rw [if_neg (not_lt.mpr hr0)]

/-- C8: the generated text is the newline-join of the header and the data
lines; the header is the TITLE line, then (up to blank/comment lines) the
LUT_3D_SIZE line, the DOMAIN_MIN and DOMAIN_MAX lines; there are exactly
size³ data lines, and every data line is three space-separated fixed
6-decimal renderings of values n/10⁶ ∈ [0,1].  (Size ≥ 2 is assumed: for
size ≤ 1 the JavaScript grid coordinate `i/(size-1)` is not a number.) -/
theorem c8_cube_format (params : LUTParams) (title : String) (size : ℕ)
    (format : LUTOutputFormat) (hs : 2 ≤ size) :
    generateCubeLUT params title size format =
      String.intercalate "\n" (cubeHeader title size format ++
        lutDataLines params size format) ∧
    (∃ c1 c2 c3 : List String,
      cubeHeader title size format ++ lutDataLines params size format =
        ("TITLE \"" ++ title ++ "\"") :: (c1 ++
          ("LUT_3D_SIZE " ++ toString size) :: (c2 ++
            "DOMAIN_MIN 0.0 0.0 0.0" :: "DOMAIN_MAX 1.0 1.0 1.0" :: (c3 ++
              lutDataLines params size format))) ∧
      (∀ l ∈ c1 ++ c2 ++ c3, l = "" ∨ l.take 1 = "#")) ∧
    (lutDataLines params size format).length = size ^ 3 ∧
    (∀ l ∈ lutDataLines params size format, ∃ a b c : ℕ,
      a ≤ 1000000 ∧ b ≤ 1000000 ∧ c ≤ 1000000 ∧
      l = fixed6OfNat a ++ " " ++ fixed6OfNat b ++ " " ++ fixed6OfNat c) := by
  refine ⟨rfl, ?_, ?_, ?_⟩
  · cases format with
    | standard =>
      refine ⟨["", "# Generated by LUT Generator",
        "# Compatible with: Final Cut Pro, Premiere Pro, DaVinci Resolve, After Effects",
        ""], [""], [""], ?_, ?_⟩
      · simp [cubeHeader]
      · intro l hl
        simp only [List.mem_append, List.mem_cons, List.not_mem_nil,
          or_false] at hl
        rcases hl with ((rfl | rfl | rfl | rfl) | rfl) | rfl <;>
          first
            | exact Or.inl rfl
            | exact Or.inr (by decide)
    | hevc =>
      refine ⟨["", "# Generated by LUT Generator",
        "# HEVC-Compatible: Optimized for Apple HEVC/H.265 footage",
        "# Compensates for limited range (16-235) and gamma differences",
        "# Compatible with: Final Cut Pro, Premiere Pro, DaVinci Resolve, After Effects",
        ""], [""], [""], ?_, ?_⟩
      · simp [cubeHeader]
      · intro l hl
        simp only [List.mem_append, List.mem_cons, List.not_mem_nil,
          or_false] at hl
        rcases hl with ((rfl | rfl | rfl | rfl | rfl | rfl) | rfl) | rfl <;>
          first
            | exact Or.inl rfl
            | exact Or.inr (by decide)
  · unfold lutDataLines
    rw [List.length_map, length_gridInputs]
  · intro l hl
    unfold lutDataLines at hl
    obtain ⟨t, _, rfl⟩ := List.mem_map.mp hl
    cases format with
    | standard =>
      simp only
      obtain ⟨m1, hm1⟩ := transformColor_mem (t.1 : ℝ) (t.2.1 : ℝ)
        (t.2.2 : ℝ) params
      obtain ⟨m2, m3⟩ := hm1
      obtain ⟨a, ha, hfa⟩ := toFixed6_of_mem m1.1 m1.2
      obtain ⟨b, hb, hfb⟩ := toFixed6_of_mem m2.1 m2.2
      obtain ⟨c, hc, hfc⟩ := toFixed6_of_mem m3.1 m3.2
      exact ⟨a, b, c, ha, hb, hc, by rw [hfa, hfb, hfc]⟩
    | hevc =>
      simp only
      obtain ⟨m1, hm1⟩ := transformColorHEVC_mem (t.1 : ℝ) (t.2.1 : ℝ)
        (t.2.2 : ℝ) params
      obtain ⟨m2, m3⟩ := hm1
      obtain ⟨a, ha, hfa⟩ := toFixed6_of_mem m1.1 m1.2
      obtain ⟨b, hb, hfb⟩ := toFixed6_of_mem m2.1 m2.2
      obtain ⟨c, hc, hfc⟩ := toFixed6_of_mem m3.1 m3.2
      exact ⟨a, b, c, ha, hb, hc, by rw [hfa, hfb, hfc]⟩

/-- Witness for C8 at grid size 2 and the default parameters: eight data
lines. -/
theorem c8_cube_format_witness :
    (lutDataLines defaultParams 2 LUTOutputFormat.standard).length = 2 ^ 3 :=
  (c8_cube_format defaultParams "Generated LUT" 2 LUTOutputFormat.standard
    (by norm_num)).2.2.1

/-! ### C4 and C9 -/

theorem normScalar_nonneg (v : ℚ) : 0 ≤ normScalar v := by
  unfold normScalar clampQ
  have hd0 : (0 : ℚ) < if 1 < |v| then 100 else 1 := by split_ifs <;> norm_num
  by_cases hv : v < 0
  · have harg : v / (if 1 < |v| then (100 : ℚ) else 1) < 0 :=
      div_neg_of_neg_of_pos hv hd0
    rw [if_pos hv, min_eq_right (le_trans (le_of_lt harg) zero_le_one),
      max_eq_left (le_of_lt harg)]
    norm_num
  · rw [if_neg hv, mul_one]
    exact le_max_left 0 _

theorem normChannel_mem (v : ℚ) : -1 ≤ normChannel v ∧ normChannel v ≤ 1 :=
  ⟨le_max_left _ _, max_le (by norm_num) (min_le_left _ _)⟩

theorem scalarField_nonneg {kw : List Char} {optS : Bool} {cs : List Char}
    {v : ℚ} (h : scalarField kw optS cs = some v) : 0 ≤ v := by
  unfold scalarField at h
  obtain ⟨u, _, rfl⟩ := Option.map_eq_some'.mp h
  exact normScalar_nonneg u

theorem rgbField_mem {kw : List Char} {cs : List Char} {t : ℚ × ℚ × ℚ}
    (h : rgbField kw cs = some t) :
    (-1 ≤ t.1 ∧ t.1 ≤ 1) ∧ (-1 ≤ t.2.1 ∧ t.2.1 ≤ 1) ∧
    (-1 ≤ t.2.2 ∧ t.2.2 ≤ 1) := by
  unfold rgbField at h
  obtain ⟨t0, _, h2⟩ := Option.bind_eq_some.mp h
  rcases h1 : parseFloatQ t0.1 with _ | a
  · rw [h1] at h2; simp at h2
  · rcases hb : parseFloatQ t0.2.1 with _ | b
    · rw [h1, hb] at h2; simp at h2
    · rcases hc : parseFloatQ t0.2.2 with _ | c
      · rw [h1, hb, hc] at h2; simp at h2
      · rw [h1, hb, hc] at h2
        simp only [Option.some.injEq] at h2
        rw [← h2]
        exact ⟨normChannel_mem a, normChannel_mem b, normChannel_mem c⟩

section

/- Batteries marks the `Rat` field operations `@[irreducible]`; making them
semireducible again lets `decide` evaluate the parser on concrete strings. -/
attribute [local semireducible] Rat.add Rat.sub Rat.mul Rat.inv Rat.ofScientific

/-- C9: for every input string, every scalar field produced by
parseAIResponse is ≥ 0 (a negative magnitude is clamped to [0,1] before the
sign is re-applied, so negative scalars collapse to 0), while each channel
of a matched lift/gamma/gain triple lies in [-1, 1] and can be negative
(witnessed by the lift example). -/
theorem c9_parser_sign_collapse :
    (∀ s : String, ∀ v : ℚ,
      ((parseAIResponse s).contrast = some v → 0 ≤ v) ∧
      ((parseAIResponse s).saturation = some v → 0 ≤ v) ∧
      ((parseAIResponse s).temperature = some v → 0 ≤ v) ∧
      ((parseAIResponse s).tint = some v → 0 ≤ v) ∧
      ((parseAIResponse s).shadows = some v → 0 ≤ v) ∧
      ((parseAIResponse s).highlights = some v → 0 ≤ v)) ∧
    (∀ s : String, ∀ t : ℚ × ℚ × ℚ,
      ((parseAIResponse s).lift = some t ∨
        (parseAIResponse s).gamma = some t ∨
        (parseAIResponse s).gain = some t) →
      (-1 ≤ t.1 ∧ t.1 ≤ 1) ∧ (-1 ≤ t.2.1 ∧ t.2.1 ≤ 1) ∧
      (-1 ≤ t.2.2 ∧ t.2.2 ≤ 1)) ∧
    (parseAIResponse "lift: -0.5, 0.2, 0").lift = some (-(1/2), 1/5, 0) := by
  refine ⟨?_, ?_, by decide⟩
  · intro s v
    exact ⟨scalarField_nonneg, scalarField_nonneg, scalarField_nonneg,
      scalarField_nonneg, scalarField_nonneg, scalarField_nonneg⟩
  · intro s t h
    rcases h with h | h | h <;> exact rgbField_mem h

/-- Witness for C9 at the concrete string "contrast: 30". -/
theorem c9_parser_sign_collapse_witness : 0 ≤ (3/10 : ℚ) :=
  ((c9_parser_sign_collapse.1 "contrast: 30" (3/10)).1) (by decide)

/-- C4 (code behaviour at the spec's example): on
"contrast: 30, saturation: -20" the parser yields contrast 0.3 but
saturation 0 — not the claimed -0.2 — because the scalar normalization
clamps to [0,1] before re-applying the sign; no other field is present. -/
theorem c4_parser_example :
    parseAIResponse "contrast: 30, saturation: -20" =
      { contrast := some (3/10), saturation := some 0, temperature := none,
        tint := none, shadows := none, highlights := none,
        lift := none, gamma := none, gain := none } := by
  decide

end

theorem clamp11_mem (v : ℚ) : -1 ≤ clamp11 v ∧ clamp11 v ≤ 1 :=
  ⟨le_max_left _ _, max_le (by norm_num) (min_le_left _ _)⟩

section

attribute [local semireducible] Rat.add Rat.sub Rat.mul Rat.inv Rat.ofScientific

/-- C5 counterexample: on an analysis whose averageColor is (0,0,0) (for
instance a pure-black image) the gain stage divides 0 by 0: the red gain
channel is NaN, refuting "never NaN for every ImageAnalysis input". -/
theorem c5_nan_counterexample :
    (analysisToLUTParams ⟨(0, 0, 0), 0, 0, 0, 0⟩).gain.1 = JSNum.nan := by
  decide

end

/-- C5 amended: whenever the maximum channel of averageColor is nonzero,
every scalar field and every lift/gamma/gain channel of
analysisToLUTParams lies in [-1, 1] and no channel is NaN (the gain
channels are finite numbers). -/
theorem c5_analysis_params_range (a : ImageAnalysisQ)
    (hmax : max a.averageColor.1 (max a.averageColor.2.1 a.averageColor.2.2)
      ≠ 0) :
    (-1 ≤ (analysisToLUTParams a).contrast ∧
      (analysisToLUTParams a).contrast ≤ 1) ∧
    (-1 ≤ (analysisToLUTParams a).saturation ∧
      (analysisToLUTParams a).saturation ≤ 1) ∧
    (-1 ≤ (analysisToLUTParams a).temperature ∧
      (analysisToLUTParams a).temperature ≤ 1) ∧
    (-1 ≤ (analysisToLUTParams a).tint ∧ (analysisToLUTParams a).tint ≤ 1) ∧
    (-1 ≤ (analysisToLUTParams a).shadows ∧
      (analysisToLUTParams a).shadows ≤ 1) ∧
    (-1 ≤ (analysisToLUTParams a).highlights ∧
      (analysisToLUTParams a).highlights ≤ 1) ∧
    (-1 ≤ (analysisToLUTParams a).lift.1 ∧ (analysisToLUTParams a).lift.1 ≤ 1) ∧
    (-1 ≤ (analysisToLUTParams a).lift.2.1 ∧
      (analysisToLUTParams a).lift.2.1 ≤ 1) ∧
    (-1 ≤ (analysisToLUTParams a).lift.2.2 ∧
      (analysisToLUTParams a).lift.2.2 ≤ 1) ∧
    (-1 ≤ (analysisToLUTParams a).gamma.1 ∧
      (analysisToLUTParams a).gamma.1 ≤ 1) ∧
    (-1 ≤ (analysisToLUTParams a).gamma.2.1 ∧
      (analysisToLUTParams a).gamma.2.1 ≤ 1) ∧
    (-1 ≤ (analysisToLUTParams a).gamma.2.2 ∧
      (analysisToLUTParams a).gamma.2.2 ≤ 1) ∧
    (∃ q1 q2 q3 : ℚ,
      (analysisToLUTParams a).gain =
        (JSNum.num q1, JSNum.num q2, JSNum.num q3) ∧
      (-1 ≤ q1 ∧ q1 ≤ 1) ∧ (-1 ≤ q2 ∧ q2 ≤ 1) ∧ (-1 ≤ q3 ∧ q3 ≤ 1)) := by
  have hg : ∀ c : ℚ,
      jsMax (-1) (jsMin 1 (jsMul (jsSub (jsDiv c
        (max a.averageColor.1 (max a.averageColor.2.1 a.averageColor.2.2))) 1)
        0.3)) =
      JSNum.num (clamp11 ((c /
        (max a.averageColor.1 (max a.averageColor.2.1 a.averageColor.2.2)) - 1)
        * 0.3)) := by
    intro c
    rw [jsDiv, if_neg hmax]
    rfl
  refine ⟨?_, ?_, ?_, ?_, ?_, ?_, ?_, ?_, ?_, ?_, ?_, ?_, ?_⟩
  all_goals simp only [analysisToLUTParams]
  · exact clamp11_mem _
  · exact clamp11_mem _
  · exact clamp11_mem _
  · exact clamp11_mem _
  · exact clamp11_mem _
  · exact clamp11_mem _
  · exact clamp11_mem _
  · exact clamp11_mem _
  · exact clamp11_mem _
  · exact clamp11_mem _
  · exact clamp11_mem _
  · exact clamp11_mem _
  · rw [hg, hg, hg]
    exact ⟨_, _, _, rfl, clamp11_mem _, clamp11_mem _, clamp11_mem _⟩

section

attribute [local semireducible] Rat.add Rat.sub Rat.mul Rat.inv Rat.ofScientific

/-- Witness for the amended C5 at averageColor (1, 1/2, 0). -/
theorem c5_analysis_params_range_witness :
    -1 ≤ (analysisToLUTParams ⟨(1, 1/2, 0), 0, 0, 0, 0⟩).contrast ∧
    (analysisToLUTParams ⟨(1, 1/2, 0), 0, 0, 0, 0⟩).contrast ≤ 1 :=
  (c5_analysis_params_range ⟨(1, 1/2, 0), 0, 0, 0, 0⟩ (by decide)).1

end

theorem le_foldr_max {l : List ℕ} {x : ℕ} (h : x ∈ l) : x ≤ l.foldr max 0 := by
  induction l with
  | nil => cases h
  | cons y ys ih =>
    rcases List.mem_cons.mp h with rfl | h2
    · exact le_max_left _ _
    · exact le_trans (ih h2) (le_max_right _ _)

theorem foldr_max_le {l : List ℕ} {c : ℕ} (h : ∀ x ∈ l, x ≤ c) :
    l.foldr max 0 ≤ c := by
  induction l with
  | nil => exact Nat.zero_le c
  | cons y ys ih =>
    have hc : (y :: ys).foldr max 0 = max y (ys.foldr max 0) := rfl
    rw [hc]
    exact max_le (h y (List.mem_cons_self y ys))
      (ih fun x hx => h x (List.mem_cons_of_mem y hx))

theorem foldr_max_mem (l : List ℕ) :
    l.foldr max 0 = 0 ∨ l.foldr max 0 ∈ l := by
  induction l with
  | nil => exact Or.inl rfl
  | cons y ys ih =>
    have hc : (y :: ys).foldr max 0 = max y (ys.foldr max 0) := rfl
    rcases max_choice y (ys.foldr max 0) with h | h
    · right
      rw [hc, h]
      exact List.mem_cons_self y ys
    · rcases ih with h0 | hmem
      · left
        rw [hc, h, h0]
      · right
        rw [hc, h]
        exact List.mem_cons_of_mem y hmem

theorem histCount_mem_allBinCounts (pixels : List Pixel) {bin : ℕ}
    (hbin : bin < 256) :
    histCount selR pixels bin ∈ allBinCounts pixels ∧
    histCount selG pixels bin ∈ allBinCounts pixels ∧
    histCount selB pixels bin ∈ allBinCounts pixels ∧
    histCount lumBin pixels bin ∈ allBinCounts pixels := by
  have hr : bin ∈ List.range 256 := List.mem_range.mpr hbin
  unfold allBinCounts
  refine ⟨?_, ?_, ?_, ?_⟩
  · exact List.mem_append_left _ (List.mem_append_left _
      (List.mem_append_left _ (List.mem_map.mpr ⟨bin, hr, rfl⟩)))
  · exact List.mem_append_left _ (List.mem_append_left _
      (List.mem_append_right _ (List.mem_map.mpr ⟨bin, hr, rfl⟩)))
  · exact List.mem_append_left _ (List.mem_append_right _
      (List.mem_map.mpr ⟨bin, hr, rfl⟩))
  · exact List.mem_append_right _ (List.mem_map.mpr ⟨bin, hr, rfl⟩)

theorem maxHistValue_pos {pixels : List Pixel} (h : pixels ≠ []) :
    0 < maxHistValue pixels := by
  obtain ⟨p, hp⟩ := List.exists_mem_of_ne_nil pixels h
  have h1 : 0 < histCount selR pixels (selR p) :=
    List.countP_pos.mpr ⟨p, hp, by simp⟩
  have hmem := (histCount_mem_allBinCounts pixels p.1.isLt).1
  exact lt_of_lt_of_le h1 (le_foldr_max hmem)

theorem normHist_mem {pixels : List Pixel} (h : pixels ≠ []) {bin : ℕ}
    (hbin : bin < 256) (sel : Pixel → ℕ)
    (hsel : histCount sel pixels bin ∈ allBinCounts pixels) :
    0 ≤ normHist sel pixels bin ∧ normHist sel pixels bin ≤ 1 := by
  have hpos := maxHistValue_pos h
  have hle : histCount sel pixels bin ≤ maxHistValue pixels :=
    le_foldr_max hsel
  unfold normHist
  rw [if_pos hpos]
  constructor
  · exact div_nonneg (by positivity) (by positivity)
  · rw [div_le_one (by exact_mod_cast hpos)]
    exact_mod_cast hle

section

attribute [local semireducible] Rat.add Rat.sub Rat.mul Rat.inv Rat.ofScientific

/-- C10: for every non-empty pixel buffer, every bin of each of the four
normalized histograms lies in [0,1]; some bin of some histogram equals
exactly 1 (the joint maximum normalizes to 1); and on the two-pixel example
buffer every bin of the red histogram is strictly below 1 (its individual
maximum is 1/2), showing the normalizer is the joint maximum, not the
per-histogram one. -/
theorem c10_histogram_normalization :
    (∀ pixels : List Pixel, pixels ≠ [] →
      (∀ bin : ℕ, bin < 256 →
        (0 ≤ normHist selR pixels bin ∧ normHist selR pixels bin ≤ 1) ∧
        (0 ≤ normHist selG pixels bin ∧ normHist selG pixels bin ≤ 1) ∧
        (0 ≤ normHist selB pixels bin ∧ normHist selB pixels bin ≤ 1) ∧
        (0 ≤ normHist lumBin pixels bin ∧ normHist lumBin pixels bin ≤ 1)) ∧
      (∃ bin, bin < 256 ∧
        (normHist selR pixels bin = 1 ∨ normHist selG pixels bin = 1 ∨
         normHist selB pixels bin = 1 ∨ normHist lumBin pixels bin = 1))) ∧
    (∀ bin : ℕ, bin < 256 → normHist selR twoPixels bin < 1) := by
  constructor
  · intro pixels hne
    constructor
    · intro bin hbin
      obtain ⟨m1, m2, m3, m4⟩ := histCount_mem_allBinCounts pixels hbin
      exact ⟨normHist_mem hne hbin _ m1, normHist_mem hne hbin _ m2,
        normHist_mem hne hbin _ m3, normHist_mem hne hbin _ m4⟩
    · have hpos := maxHistValue_pos hne
      rcases foldr_max_mem (allBinCounts pixels) with h0 | hmem
      · rw [maxHistValue] at hpos
        omega
      · have hone : ∀ sel : Pixel → ℕ, ∀ bin : ℕ,
            histCount sel pixels bin = maxHistValue pixels →
            normHist sel pixels bin = 1 := by
          intro sel bin he
          unfold normHist
          rw [if_pos hpos, he]
          refine div_self ?_
          exact Nat.cast_ne_zero.mpr (by omega)
        unfold allBinCounts at hmem
        rcases List.mem_append.mp hmem with hm | hm4
        · rcases List.mem_append.mp hm with hm2 | hm3
          · rcases List.mem_append.mp hm2 with hmr | hmg
            · obtain ⟨bin, hbr, he⟩ := List.mem_map.mp hmr
              exact ⟨bin, List.mem_range.mp hbr,
                Or.inl (hone selR bin he)⟩
            · obtain ⟨bin, hbr, he⟩ := List.mem_map.mp hmg
              exact ⟨bin, List.mem_range.mp hbr,
                Or.inr (Or.inl (hone selG bin he))⟩
          · obtain ⟨bin, hbr, he⟩ := List.mem_map.mp hm3
            exact ⟨bin, List.mem_range.mp hbr,
              Or.inr (Or.inr (Or.inl (hone selB bin he)))⟩
        · obtain ⟨bin, hbr, he⟩ := List.mem_map.mp hm4
          exact ⟨bin, List.mem_range.mp hbr,
            Or.inr (Or.inr (Or.inr (hone lumBin bin he)))⟩
  · intro bin hbin
    have hle2 : ∀ (sel : Pixel → ℕ) (b : ℕ), histCount sel twoPixels b ≤ 2 := by
      intro sel b
      have h2 : histCount sel twoPixels b ≤ twoPixels.length := by
        unfold histCount
        exact List.countP_le_length _
      simpa [twoPixels] using h2
    have hmax : maxHistValue twoPixels = 2 := by
      apply le_antisymm
      · unfold maxHistValue
        apply foldr_max_le
        intro x hx
        unfold allBinCounts at hx
        rcases List.mem_append.mp hx with hm | hm4
        · rcases List.mem_append.mp hm with hm2 | hm3
          · rcases List.mem_append.mp hm2 with hmr | hmg
            · obtain ⟨b, _, rfl⟩ := List.mem_map.mp hmr
              exact hle2 selR b
            · obtain ⟨b, _, rfl⟩ := List.mem_map.mp hmg
              exact hle2 selG b
          · obtain ⟨b, _, rfl⟩ := List.mem_map.mp hm3
            exact hle2 selB b
        · obtain ⟨b, _, rfl⟩ := List.mem_map.mp hm4
          exact hle2 lumBin b
      · have hg : histCount selG twoPixels 0 = 2 := by decide
        have hmem := (histCount_mem_allBinCounts twoPixels
          (by norm_num : (0 : ℕ) < 256)).2.1
        rw [hg] at hmem
        unfold maxHistValue
        exact le_foldr_max hmem
    have hcount : histCount selR twoPixels bin ≤ 1 := by
      simp only [histCount, twoPixels, selR, List.countP_cons, List.countP_nil]
      split_ifs <;> simp_all
    unfold normHist
    rw [if_pos (by rw [hmax]; norm_num), hmax]
    rw [div_lt_one (by norm_num)]
    have hcq : (histCount selR twoPixels bin : ℚ) ≤ 1 := by exact_mod_cast hcount
    push_cast
    linarith

/-- Witness for C10 on the two-pixel buffer: its green histogram attains
exactly 1 at some bin. -/
theorem c10_histogram_normalization_witness :
    ∃ bin, bin < 256 ∧
      (normHist selR twoPixels bin = 1 ∨ normHist selG twoPixels bin = 1 ∨
       normHist selB twoPixels bin = 1 ∨ normHist lumBin twoPixels bin = 1) :=
  ((c10_histogram_normalization.1 twoPixels (by
    intro h
    simp [twoPixels] at h)).2)

end

end LUT
